import Mathlib

/-!
# tdl upload pipeline: iterator, upload pool task and transfer worker

Shallow embedding of `app/up/iter.go` (the transfer-unit iterator) and
`pkg/uploader/uploader.go` (the pool producer, the per-unit task and the
transfer worker).  Collaborators that live outside these files (file system,
peer directory, expression engine, styled-text parser, mime sniffer, remote
client) are fields of an explicit world record; every call the Go code makes
to them is a call to the corresponding field.
-/

set_option linter.dupNamespace false

namespace Tdl

/-! ## Go errors and contexts -/

/-- Non-nil Go error values.  `wrap` and `wrapNil` are the `*wrapError` values
built by `errors.Wrap`/`errors.Wrapf` of `github.com/go-faster/errors`, whose
cause may be another error or nil. -/
inductive GoError where
  | canceled
  | deadlineExceeded
  | msg (text : String)
  | wrap (text : String) (cause : GoError)
  | wrapNil (text : String)
  deriving DecidableEq, Repr

/-- A Go value of interface type `error`: `none` is `nil`. -/
abbrev Error := Option GoError

namespace errors

/-- Model of `errors.Wrap(err, message)` / `errors.Wrapf(err, format, args...)`
from `github.com/go-faster/errors`: the library allocates
`&wrapError{msg, err, frame}` unconditionally, so the result is non-nil even
when `err` is nil.  The second argument is the already formatted message. -/
def Wrap (err : Error) (message : String) : Error :=
  match err with
  | none => some (GoError.wrapNil message)
  | some e => some (GoError.wrap message e)

/-- Model of `errors.Errorf(format, args...)`: a fresh leaf error carrying the
formatted message. -/
def Errorf (message : String) : Error :=
  some (GoError.msg message)

/-- Model of `errors.Is(err, context.Canceled)` for a non-nil `err`: compare,
then follow the `Unwrap` chain. -/
def IsCanceled : GoError → Bool
  | GoError.canceled => true
  | GoError.deadlineExceeded => false
  | GoError.msg _ => false
  | GoError.wrap _ cause => IsCanceled cause
  | GoError.wrapNil _ => false

end errors

/-- A `context.Context` as the code observes it: `Err` is `ctx.Err()`, and
`ctx.Done()` is closed exactly when `Err` is non-nil. -/
structure Context where
  Err : Error
  deriving DecidableEq, Repr

/-- The `select` on `ctx.Done()` with a `default` branch. -/
def Context.Done (ctx : Context) : Bool :=
  ctx.Err.isSome

/-! ## Data model of `app/up/iter.go` -/

/-- Result of running a compiled expression (`interface{}` in Go). -/
inductive ExprValue where
  | str (s : String)
  | seq (items : List ExprValue)
  | record (fields : List (String × ExprValue))
  | int (n : Int)
  | bool (b : Bool)
  | null

/-- What the `%T` verb prints for an expression result. -/
def ExprValue.typeName : ExprValue → String
  | ExprValue.str _ => "string"
  | ExprValue.seq _ => "[]interface \x7b\x7d"
  | ExprValue.record _ => "map[string]interface \x7b\x7d"
  | ExprValue.int _ => "int"
  | ExprValue.bool _ => "bool"
  | ExprValue.null => "<nil>"

/-- Struct `Env`. -/
structure Env where
  File : String
  Thumb : String
  Filename : String
  Extension : String
  Mime : String
  deriving DecidableEq, Repr

/-- Struct `File`. -/
structure File where
  File : String
  Thumb : String
  deriving DecidableEq, Repr

/-- Struct `dest`. -/
structure dest where
  Peer : String
  Thread : Int
  deriving DecidableEq, Repr

/-- An opened `*os.File`; `Name()` is the path it was opened with. -/
structure OsFile where
  Name : String
  deriving DecidableEq, Repr

/-- A resolved `peers.Peer` handle. -/
structure Peer where
  id : Nat
  deriving DecidableEq, Repr

/-- A `message.StyledTextOption`: a run of caption text with its style. -/
structure StyledTextOption where
  style : String
  text : String
  deriving DecidableEq, Repr

/-- Model of `styling.Plain(s)`. -/
def styling.Plain (s : String) : StyledTextOption :=
  { style := "plain", text := s }

/-- Struct `uploaderFile`. -/
structure uploaderFile where
  File : OsFile
  size : Int
  deriving DecidableEq, Repr

/-- Struct `iterElem`; `to_` is the field `to`, a Go interface value, `none`
being nil. -/
structure iterElem where
  file : uploaderFile
  thumb : Option uploaderFile
  to_ : Option Peer
  caption : List StyledTextOption
  thread : Int
  asPhoto : Bool
  remove : Bool
  deriving DecidableEq, Repr

/-- A compiled `*vm.Program` together with `texpr.Run`: the value or the error
of running it on an environment. -/
abbrev Program := Env → Except GoError ExprValue

/-- The collaborators `iter.Next` calls. -/
structure World where
  /-- Function `os.Open`. -/
  osOpen : String → Except GoError OsFile
  /-- Call `f.Stat()` followed by `Size()`. -/
  osStat : OsFile → Except GoError Int
  /-- Call `mimetype.DetectFile(path)` followed by `String()`. -/
  DetectFile : String → Except GoError String
  /-- Helper `utils.Media.IsImage`. -/
  IsImage : String → Bool
  /-- Call `manager.Self(ctx)`: both returned values. -/
  Self : Option Peer × Error
  /-- Call `utils.Telegram.GetInputPeer(ctx, manager, peer)`: both returned values. -/
  GetInputPeer : String → Option Peer × Error
  /-- Call `mapstructure.WeakDecode(r, &d)`: the decoded `dest` or the error. -/
  WeakDecode : List (String × ExprValue) → Except GoError dest
  /-- Helper `tstyle.ParseToStyledText`. -/
  ParseToStyledText : List (String × ExprValue) → Except GoError StyledTextOption
  /-- Function `filepath.Ext`. -/
  Ext : String → String
  /-- Function `filepath.Base`. -/
  Base : String → String
  /-- What the `%v` verb prints for an expression result. -/
  FormatV : ExprValue → String

/-- Struct `iter`; `to_` is the field `to`, and the peer manager is part of the
world. -/
structure iter where
  files : List File
  to_ : Program
  caption : Program
  chat : String
  topic : Int
  photo : Bool
  remove : Bool
  cur : Nat
  err : Error
  file : Option iterElem

/-- Function `strings.TrimSuffix`. -/
def trimSuffix (s suffix : String) : String :=
  if s.endsWith suffix then s.dropRight suffix.length else s

/-- Function `exprEnv` for a non-nil file: a mime-detection failure degrades
the mime type to the empty string. -/
def exprEnv (w : World) (file : File) : Env :=
  let extension := w.Ext file.File
  let filename := trimSuffix (w.Base file.File) extension
  let mime := match w.DetectFile file.File with
    | Except.ok m => m
    | Except.error _ => ""
  { File := file.File, Thumb := file.Thumb, Filename := filename,
    Extension := extension, Mime := mime }

/-- Function `newIter`. -/
def newIter (files : List File) (to_ caption : Program) (chat : String) (topic : Int)
    (photo remove : Bool) : iter :=
  { files := files, to_ := to_, caption := caption, chat := chat, topic := topic,
    photo := photo, remove := remove, cur := 0, err := none, file := none }

/-- Method `iter.HasNext`. -/
def iter.HasNext (i : iter) : Bool :=
  i.err.isNone && decide (i.cur < i.files.length)

/-- Method `iter.resolvePeer`: both returned values. -/
def iter.resolvePeer (_i : iter) (w : World) (peer : String) : Option Peer × Error :=
  if peer = "" then w.Self else w.GetInputPeer peer

/-- Method `iter.Value`. -/
def iter.Value (i : iter) : Option iterElem :=
  i.file

/-- Method `iter.Err`. -/
def iter.Err (i : iter) : Error :=
  i.err

/-- Lines 205-221 of `iter.Next`: stat the primary file, then construct and
store the unit. -/
def iter.nextStat (w : World) (i : iter) (f : OsFile) (to_ : Option Peer) (thread : Int)
    (caption : List StyledTextOption) (thumb : Option uploaderFile) : Bool × iter :=
  match w.osStat f with
  | Except.error err => (false, { i with err := errors.Wrap (some err) "stat file" })
  | Except.ok size =>
    let elem : iterElem :=
      { file := { File := f, size := size }, thumb := thumb, to_ := to_,
        caption := caption, thread := thread, asPhoto := i.photo, remove := i.remove }
    (true, { i with file := some elem })

/-- Lines 188-203 of `iter.Next`: thumbnail validation.  In the combined test
`err != nil || !IsImage(...)` the value handed to `errors.Wrapf` is `err`,
which is nil when only the second disjunct holds. -/
def iter.nextThumb (w : World) (i : iter) (cur : File) (f : OsFile) (to_ : Option Peer)
    (thread : Int) (caption : List StyledTextOption) : Bool × iter :=
  if cur.Thumb ≠ "" then
    match w.DetectFile cur.Thumb with
    | Except.error err =>
      (false, { i with err := errors.Wrap (some err) ("invalid thumbnail file: " ++ cur.Thumb) })
    | Except.ok tMime =>
      if !w.IsImage tMime then
        (false, { i with err := errors.Wrap none ("invalid thumbnail file: " ++ cur.Thumb) })
      else
        match w.osOpen cur.Thumb with
        | Except.error err => (false, { i with err := errors.Wrap (some err) "open thumbnail file" })
        | Except.ok thumbFile =>
          i.nextStat w f to_ thread caption (some { File := thumbFile, size := 0 })
  else
    i.nextStat w f to_ thread caption none

/-- The `for _, v := range r` loop of lines 170-182: the inner type switch has
the cases `string` and `map[string]interface{}` and no `default`.  The result
is the caption, or the value stored in `i.err` on a parse failure. -/
def captionItems (w : World) :
    List ExprValue → List StyledTextOption → Except Error (List StyledTextOption)
  | [], caption => Except.ok caption
  | v :: rest, caption =>
    match v with
    | ExprValue.str s => captionItems w rest (caption ++ [styling.Plain s])
    | ExprValue.record r =>
      match w.ParseToStyledText r with
      | Except.error err => Except.error (errors.Wrap (some err) "parse styled text")
      | Except.ok styledText => captionItems w rest (caption ++ [styledText])
    | _ => captionItems w rest caption

/-- Lines 160-186 of `iter.Next`: caption evaluation. -/
def iter.nextCaption (w : World) (i : iter) (cur : File) (f : OsFile) (to_ : Option Peer)
    (thread : Int) : Bool × iter :=
  match i.caption (exprEnv w cur) with
  | Except.error err => (false, { i with err := errors.Wrap (some err) "caption parse" })
  | Except.ok result =>
    match result with
    | ExprValue.str r => i.nextThumb w cur f to_ thread [styling.Plain r]
    | ExprValue.seq r =>
      match captionItems w r [] with
      | Except.error e => (false, { i with err := e })
      | Except.ok caption => i.nextThumb w cur f to_ thread caption
    | _ =>
      let e := errors.Errorf ("caption must return string or array of object: " ++ result.typeName)
      (false, { i with err := e })

/-- Lines 120-158 of `iter.Next`: destination resolution.  With a static chat
the error of `resolvePeer` is stored in `i.err` and tested; in the routing
branch the error of `resolvePeer` is assigned to the block-local `err`, which
is not read again. -/
def iter.nextRoute (w : World) (i : iter) (cur : File) (f : OsFile) : Bool × iter :=
  if i.chat ≠ "" then
    let r := i.resolvePeer w i.chat
    let i := { i with err := r.2 }
    if r.2.isSome then (false, i) else i.nextCaption w cur f r.1 i.topic
  else
    match i.to_ (exprEnv w cur) with
    | Except.error err => (false, { i with err := errors.Wrap (some err) "message routing" })
    | Except.ok result =>
      match result with
      | ExprValue.str r => i.nextCaption w cur f (i.resolvePeer w r).1 0
      | ExprValue.record r =>
        match w.WeakDecode r with
        | Except.error err =>
          (false, { i with err := errors.Wrap (some err) ("decode dest: " ++ w.FormatV result) })
        | Except.ok d => i.nextCaption w cur f (i.resolvePeer w d.Peer).1 d.Thread
      | _ =>
        let e := errors.Errorf ("message router must return string or dest: " ++ result.typeName)
        (false, { i with err := e })

/-- Method `iter.Next`: the returned flag and the iterator afterwards.  The
branch for an index out of range is never taken (`HasNext` holds there). -/
def iter.Next (w : World) (ctx : Context) (i : iter) : Bool × iter :=
  if ctx.Done then (false, { i with err := ctx.Err })
  else if !i.HasNext then (false, i)
  else
    match i.files[i.cur]? with
    | none => (false, i)
    | some cur =>
      let i := { i with cur := i.cur + 1 }
      match w.osOpen cur.File with
      | Except.error err => (false, { i with err := errors.Wrap (some err) "open file" })
      | Except.ok f => i.nextRoute w cur f

/-! ## Data model of `pkg/uploader` -/

namespace uploader

/-- Interface `File`: the values of its `Name()` and `Size()` methods. -/
structure File where
  Name : String
  Size : Int
  deriving DecidableEq, Repr

/-- Interface `Elem`: the values of its six methods; `Thumb` is `none` when the
second result of `Thumb()` is false. -/
structure Elem where
  File : uploader.File
  Thumb : Option uploader.File
  Caption : List StyledTextOption
  To : Option Peer
  Thread : Int
  AsPhoto : Bool
  deriving DecidableEq, Repr

/-- Interface `Iter` over a state type `σ`, yielding values of type `ε`. -/
structure Iter (σ ε : Type) where
  Next : Context → σ → Bool × σ
  HasNext : σ → Bool
  Value : σ → ε
  Err : σ → Error

/-- A file uploaded to the remote service (`tg.InputFileClass`). -/
structure InputFile where
  id : Nat
  deriving DecidableEq, Repr

/-- The builder returned by `message.UploadedDocument(f, caption...)` after
`MIME`, `Filename` and, when the thumbnail upload succeeded, `Thumb`. -/
structure Document where
  file : InputFile
  caption : List StyledTextOption
  mime : String
  filename : String
  thumb : Option InputFile
  deriving DecidableEq, Repr

/-- The `message.MediaOption` handed to the sender. -/
inductive MediaOption where
  | document (doc : Document)
  | photo (file : InputFile) (caption : List StyledTextOption)
  | video (doc : Document) (duration width height : Int)
  | audioTrack (doc : Document) (title : String)
  deriving DecidableEq, Repr

/-- The message handed to `Sender.To(..).Reply(..).Media(ctx, media)`. -/
structure Sent where
  To : Option Peer
  Reply : Int
  media : MediaOption
  deriving DecidableEq, Repr

/-- The collaborators the transfer worker calls for one unit. -/
structure Remote where
  /-- Call `up.Upload(ctx, uploader.NewUpload(name, file, size))`. -/
  Upload : File → Except GoError InputFile
  /-- The error of the n-th call (from 0) of `elem.File().Seek(0, io.SeekStart)`. -/
  Seek : Nat → Error
  /-- Call `mimetype.DetectReader(elem.File())` followed by `String()`. -/
  DetectReader : File → Except GoError String
  /-- Call `uploader.NewUploader(client).FromReader(ctx, thumb.Name(), thumb)`. -/
  FromReader : File → Except GoError InputFile
  /-- Helper `utils.Media.IsImage`. -/
  IsImage : String → Bool
  /-- Helper `utils.Media.IsVideo`. -/
  IsVideo : String → Bool
  /-- Helper `utils.Media.IsAudio`. -/
  IsAudio : String → Bool
  /-- Helper `utils.Media.GetMP4Info`: duration, width, height. -/
  GetMP4Info : File → Except GoError (Int × Int × Int)
  /-- Helper `utils.FS.GetNameWithoutExt`. -/
  GetNameWithoutExt : String → String
  /-- The error of sending the composed message. -/
  Media : Sent → Error

/-- Lines 114-138 of `Uploader.upload`: the `switch` choosing the media
representation from the sniffed mime type.  The result is the media, or the
error the worker returns from inside the video case. -/
def selectMedia (r : Remote) (elem : Elem) (f : InputFile) (mime : String) (doc : Document) :
    Except Error MediaOption :=
  if r.IsImage mime && elem.AsPhoto then
    if mime = "image/webp" then Except.ok (MediaOption.document doc)
    else Except.ok (MediaOption.photo f elem.Caption)
  else if r.IsVideo mime then
    match r.Seek 1 with
    | some err => Except.error (errors.Wrap (some err) "seek file")
    | none =>
      match r.GetMP4Info elem.File with
      | Except.ok (dur, w, h) => Except.ok (MediaOption.video doc dur w h)
      | Except.error _ => Except.ok (MediaOption.document doc)
  else if r.IsAudio mime then
    Except.ok (MediaOption.audioTrack doc (r.GetNameWithoutExt elem.File.Name))
  else Except.ok (MediaOption.document doc)

/-- Lines 103-112 of `Uploader.upload`: the document builder, with the
thumbnail attached only when its upload succeeds. -/
def buildDocument (r : Remote) (elem : Elem) (f : InputFile) (mime : String) : Document :=
  let doc : Document :=
    { file := f, caption := elem.Caption, mime := mime, filename := elem.File.Name,
      thumb := none }
  match elem.Thumb with
  | some thumb =>
    match r.FromReader thumb with
    | Except.ok thumbFile => { doc with thumb := some thumbFile }
    | Except.error _ => doc
  | none => doc

/-- Method `Uploader.upload` (the transfer worker): the returned error and the
message handed to the sender, if the worker got that far. -/
def upload (r : Remote) (ctx : Context) (elem : Elem) : Error × Option Sent :=
  if ctx.Done then (ctx.Err, none)
  else
    match r.Upload elem.File with
    | Except.error err => (errors.Wrap (some err) "upload file", none)
    | Except.ok f =>
      match r.Seek 0 with
      | some err => (errors.Wrap (some err) "seek file", none)
      | none =>
        match r.DetectReader elem.File with
        | Except.error err => (errors.Wrap (some err) "detect mime", none)
        | Except.ok mime =>
          match selectMedia r elem f mime (buildDocument r elem f mime) with
          | Except.error e => (e, none)
          | Except.ok media =>
            let sent : Sent := { To := elem.To, Reply := elem.Thread, media := media }
            match r.Media sent with
            | some err => (errors.Wrap (some err) "send message", some sent)
            | none => (none, some sent)

/-- What a dispatched task does, in order. -/
inductive Event (ε : Type) where
  | OnAdd (elem : ε)
  | upload (elem : ε)
  | Delay (d : Nat)
  | OnDone (elem : ε) (rerr : Error)
  deriving DecidableEq, Repr

/-- The closure handed to `wg.Go` in `Uploader.Upload` (lines 45-65), for a
unit whose worker call `u.upload(wgctx, elem)` returned `uploadErr`: the
events in order and the value `rerr` the closure returns.  The deferred
`OnDone` runs last and receives the closure's return value `rerr`.
`hasNext` is the value of `u.opts.Iter.HasNext()` when the closure reads it. -/
def task {ε : Type} (Delay : Nat) (elem : ε) (uploadErr : Error) (hasNext : Bool) :
    List (Event ε) × Error :=
  let rest : List (Event ε) × Error :=
    if Delay ≠ 0 && hasNext then
      ([Event.OnAdd elem, Event.upload elem, Event.Delay Delay, Event.OnDone elem none], none)
    else ([Event.OnAdd elem, Event.upload elem, Event.OnDone elem none], none)
  match uploadErr with
  | some err =>
    if errors.IsCanceled err then
      let rerr := errors.Wrap (some err) "upload"
      ([Event.OnAdd elem, Event.upload elem, Event.OnDone elem rerr], rerr)
    else rest
  | none => rest

/-- What the producer of `Uploader.Upload` did: the units handed to `wg.Go` in
order, whether `wg.Wait()` was called, and the returned error. -/
structure UploadRun (ε : Type) where
  dispatched : List ε
  waited : Bool
  ret : Error
  deriving DecidableEq, Repr

/-- The loop `for u.opts.Iter.Next(wgctx) { elem := Value(); wg.Go(...) }` of
`Uploader.Upload`.  `wgctx k` is the group context as the k-th call of `Next`
observes it; the first argument bounds the number of calls, and the result is
`none` when the bound is exhausted before `Next` returns false.  A call of
`wg.Go` may block until a slot of the pool is free; it does not change which
calls the producer makes, nor their order. -/
def produce {σ ε : Type} (it : Iter σ ε) (wgctx : Nat → Context) :
    Nat → Nat → σ → List ε → Option (σ × List ε)
  | 0, _, _, _ => none
  | fuel + 1, k, s, acc =>
    match it.Next (wgctx k) s with
    | (true, s1) => produce it wgctx fuel (k + 1) s1 (acc ++ [it.Value s1])
    | (false, s1) => some (s1, acc)

/-- Method `Uploader.Upload` seen from the producer: after the loop, a non-nil
`Iter.Err()` is returned wrapped at once; otherwise the result is that of
`wg.Wait()`, given as `waitErr`. -/
def Upload {σ ε : Type} (it : Iter σ ε) (wgctx : Nat → Context) (waitErr : Error)
    (fuel : Nat) (s : σ) : Option (UploadRun ε) :=
  match produce it wgctx fuel 0 s [] with
  | none => none
  | some (s1, dispatched) =>
    match it.Err s1 with
    | some err =>
      some { dispatched := dispatched, waited := false, ret := errors.Wrap (some err) "iter" }
    | none => some { dispatched := dispatched, waited := true, ret := waitErr }

end uploader

/-- A sequence of calls of `iter.Next`, one per context in the list: the flags
returned in order and the iterator after the last call. -/
def iter.Nexts (w : World) : List Context → iter → List Bool × iter
  | [], i => ([], i)
  | ctx :: rest, i =>
    let r := i.Next w ctx
    let rs := iter.Nexts w rest r.2
    (r.1 :: rs.1, rs.2)

/-- The iterator of `app/up` as an `uploader.Iter`. -/
def iterOps (w : World) : uploader.Iter iter (Option iterElem) :=
  { Next := fun ctx i => i.Next w ctx
    HasNext := fun i => i.HasNext
    Value := fun i => i.Value
    Err := fun i => i.Err }

/-! ## Sample worlds and iterators -/

/-- A decoder for records of the form `{Peer: p, Thread: t}`. -/
def sampleDecode (r : List (String × ExprValue)) : Except GoError dest :=
  match r with
  | [("Peer", ExprValue.str p), ("Thread", ExprValue.int t)] => Except.ok { Peer := p, Thread := t }
  | _ => Except.error (GoError.msg "cannot decode")

/-- A world where `missing.bin` cannot be opened, `notes.txt` sniffs as text,
every other path sniffs as a JPEG image, and the peer `nobody` is unknown. -/
def sampleWorld : World :=
  { osOpen := fun p =>
      if p = "missing.bin" then Except.error (GoError.msg "no such file") else Except.ok { Name := p }
    osStat := fun _ => Except.ok 10
    DetectFile := fun p => if p = "notes.txt" then Except.ok "text/plain" else Except.ok "image/jpeg"
    IsImage := fun m => decide (m = "image/jpeg")
    Self := (some { id := 0 }, none)
    GetInputPeer := fun p =>
      if p = "nobody" then (none, some (GoError.msg "peer not found")) else (some { id := 1 }, none)
    WeakDecode := sampleDecode
    ParseToStyledText := fun _ => Except.ok { style := "code", text := "x" }
    Ext := fun _ => ""
    Base := fun p => p
    FormatV := fun _ => "" }

/-- A program returning the same value for every environment. -/
def constProgram (v : ExprValue) : Program :=
  fun _ => Except.ok v

/-- A fresh iterator without a static chat, routing every file with `route`
and captioning it with `caption`. -/
def sampleIter (files : List File) (route caption : ExprValue) : iter :=
  newIter files (constProgram route) (constProgram caption) "" 0 false false

/-- A context that is not signaled. -/
def background : Context :=
  { Err := none }

/-- A context cancelled by the caller. -/
def cancelled : Context :=
  { Err := some GoError.canceled }

/-- A remote where every call succeeds; files named `a.webp` sniff as
`image/webp`, all others as `image/jpeg`. -/
def sampleRemote : uploader.Remote :=
  { Upload := fun _ => Except.ok { id := 1 }
    Seek := fun _ => none
    DetectReader := fun f => if f.Name = "a.webp" then Except.ok "image/webp" else Except.ok "image/jpeg"
    FromReader := fun _ => Except.ok { id := 2 }
    IsImage := fun m => decide (m = "image/webp" ∨ m = "image/jpeg")
    IsVideo := fun m => decide (m = "video/mp4")
    IsAudio := fun m => decide (m = "audio/mpeg")
    GetMP4Info := fun _ => Except.ok (1, 2, 3)
    GetNameWithoutExt := fun n => n
    Media := fun _ => none }

/-- A unit for the file `name`, without thumbnail or caption, sent to self. -/
def sampleElem (name : String) (asPhoto : Bool) : uploader.Elem :=
  { File := { Name := name, Size := 10 }, Thumb := none, Caption := [],
    To := some { id := 0 }, Thread := 0, AsPhoto := asPhoto }

/-- The message the worker composes for `sampleElem "a.webp"` on
`sampleRemote`. -/
def sampleSent : uploader.Sent :=
  { To := some { id := 0 }, Reply := 0,
    media := uploader.MediaOption.document
      { file := { id := 1 }, caption := [], mime := "image/webp", filename := "a.webp",
        thumb := none } }

/-! ## Basic facts -/

theorem errors.Wrap_isSome (err : Error) (message : String) :
    (errors.Wrap err message).isSome = true := by
  cases err <;> rfl

theorem errors.Wrap_ne_none (err : Error) (message : String) :
    errors.Wrap err message ≠ none := by
  cases err <;> simp [errors.Wrap]

theorem iter.HasNext_iff (i : iter) :
    i.HasNext = true ↔ i.err = none ∧ i.cur < i.files.length := by
  simp [iter.HasNext, Option.isNone_iff_eq_none]

theorem iter.HasNext_false_of_err (i : iter) (h : i.err.isSome = true) :
    i.HasNext = false := by
  cases he : i.err with
  | none => simp [he] at h
  | some e => simp [iter.HasNext, he]

/-- With a terminal error in place, `Next` returns false and only ever
rewrites the error slot with another non-nil error. -/
theorem iter.Next_of_err (w : World) (ctx : Context) (i : iter) (h : i.err.isSome = true) :
    (i.Next w ctx).1 = false ∧ (i.Next w ctx).2.err.isSome = true ∧
      (i.Next w ctx).2.cur = i.cur ∧ (i.Next w ctx).2.file = i.file ∧
      (i.Next w ctx).2.files = i.files := by
  unfold iter.Next
  by_cases hd : ctx.Done = true
  · rw [if_pos hd]
    exact ⟨rfl, hd, rfl, rfl, rfl⟩
  · rw [if_neg hd, iter.HasNext_false_of_err i h]
    exact ⟨rfl, h, rfl, rfl, rfl⟩

/-- Once the terminal error is set, no sequence of later calls produces a
unit, moves the cursor or clears the error. -/
theorem iter.Nexts_of_err (w : World) (later : List Context) :
    ∀ i : iter, i.err.isSome = true →
      (∀ b ∈ (iter.Nexts w later i).1, b = false) ∧
      (iter.Nexts w later i).2.err.isSome = true ∧
      (iter.Nexts w later i).2.cur = i.cur ∧
      (iter.Nexts w later i).2.file = i.file ∧
      (iter.Nexts w later i).2.files = i.files := by
  induction later with
  | nil =>
    intro i h
    simp [iter.Nexts, h]
  | cons ctx rest ih =>
    intro i h
    obtain ⟨h1, h2, h3, h4, h5⟩ := iter.Next_of_err w ctx i h
    obtain ⟨k1, k2, k3, k4, k5⟩ := ih (i.Next w ctx).2 h2
    refine ⟨?_, ?_, ?_, ?_, ?_⟩
    · intro b hb
      simp only [iter.Nexts, List.mem_cons] at hb
      rcases hb with hb | hb
      · rw [hb, h1]
      · exact k1 b hb
    · simpa [iter.Nexts] using k2
    · simp only [iter.Nexts]; rw [k3, h3]
    · simp only [iter.Nexts]; rw [k4, h4]
    · simp only [iter.Nexts]; rw [k5, h5]

/-- A failing `nextStat` leaves a terminal error and constructs no unit. -/
theorem iter.nextStat_false (w : World) (i : iter) (f : OsFile) (to_ : Option Peer)
    (thread : Int) (caption : List StyledTextOption) (thumb : Option uploaderFile)
    (h : (i.nextStat w f to_ thread caption thumb).1 = false) :
    (i.nextStat w f to_ thread caption thumb).2.err.isSome = true ∧
      (i.nextStat w f to_ thread caption thumb).2.file = i.file := by
  unfold iter.nextStat at h ⊢
  split <;> simp_all [errors.Wrap]

/-- A failing `nextThumb` leaves a terminal error and constructs no unit. -/
theorem iter.nextThumb_false (w : World) (i : iter) (cur : File) (f : OsFile)
    (to_ : Option Peer) (thread : Int) (caption : List StyledTextOption)
    (h : (i.nextThumb w cur f to_ thread caption).1 = false) :
    (i.nextThumb w cur f to_ thread caption).2.err.isSome = true ∧
      (i.nextThumb w cur f to_ thread caption).2.file = i.file := by
  by_cases ht : cur.Thumb = ""
  · have e1 : i.nextThumb w cur f to_ thread caption = i.nextStat w f to_ thread caption none := by
      simp [iter.nextThumb, ht]
    rw [e1] at h ⊢
    exact iter.nextStat_false w i f to_ thread caption _ h
  · cases hdet : w.DetectFile cur.Thumb with
    | error e => simp [iter.nextThumb, ht, hdet, errors.Wrap]
    | ok m =>
      cases him : w.IsImage m with
      | false => simp [iter.nextThumb, ht, hdet, him, errors.Wrap]
      | true =>
        cases hop : w.osOpen cur.Thumb with
        | error e => simp [iter.nextThumb, ht, hdet, him, hop, errors.Wrap]
        | ok thumbFile =>
          have e1 : i.nextThumb w cur f to_ thread caption =
              i.nextStat w f to_ thread caption (some { File := thumbFile, size := 0 }) := by
            simp [iter.nextThumb, ht, hdet, him, hop]
          rw [e1] at h ⊢
          exact iter.nextStat_false w i f to_ thread caption _ h

/-- A successful `nextStat` stores a unit with the destination and thread it
was handed. -/
theorem iter.nextStat_true (w : World) (i : iter) (f : OsFile) (to_ : Option Peer)
    (thread : Int) (caption : List StyledTextOption) (thumb : Option uploaderFile)
    (h : (i.nextStat w f to_ thread caption thumb).1 = true) :
    ∃ elem, (i.nextStat w f to_ thread caption thumb).2.file = some elem ∧
      elem.to_ = to_ ∧ elem.thread = thread ∧ elem.caption = caption := by
  cases hs : w.osStat f with
  | error e => simp [iter.nextStat, hs] at h
  | ok size => simp [iter.nextStat, hs]

/-- A successful `nextThumb` stores a unit with the destination, thread and
caption it was handed. -/
theorem iter.nextThumb_true (w : World) (i : iter) (cur : File) (f : OsFile)
    (to_ : Option Peer) (thread : Int) (caption : List StyledTextOption)
    (h : (i.nextThumb w cur f to_ thread caption).1 = true) :
    ∃ elem, (i.nextThumb w cur f to_ thread caption).2.file = some elem ∧
      elem.to_ = to_ ∧ elem.thread = thread ∧ elem.caption = caption := by
  by_cases ht : cur.Thumb = ""
  · have e1 : i.nextThumb w cur f to_ thread caption = i.nextStat w f to_ thread caption none := by
      simp [iter.nextThumb, ht]
    rw [e1] at h ⊢
    exact iter.nextStat_true w i f to_ thread caption _ h
  · cases hdet : w.DetectFile cur.Thumb with
    | error e => simp [iter.nextThumb, ht, hdet] at h
    | ok m =>
      cases him : w.IsImage m with
      | false => simp [iter.nextThumb, ht, hdet, him] at h
      | true =>
        cases hop : w.osOpen cur.Thumb with
        | error e => simp [iter.nextThumb, ht, hdet, him, hop] at h
        | ok thumbFile =>
          have e1 : i.nextThumb w cur f to_ thread caption =
              i.nextStat w f to_ thread caption (some { File := thumbFile, size := 0 }) := by
            simp [iter.nextThumb, ht, hdet, him, hop]
          rw [e1] at h ⊢
          exact iter.nextStat_true w i f to_ thread caption _ h

/-- The caption loop fails only with a non-nil error. -/
theorem captionItems_error (w : World) (items : List ExprValue) :
    ∀ (caption : List StyledTextOption) (e : Error),
      captionItems w items caption = Except.error e → e.isSome = true := by
  induction items with
  | nil =>
    intro caption e h
    simp [captionItems] at h
  | cons v rest ih =>
    intro caption e h
    cases v with
    | str s => exact ih _ e (by simpa [captionItems] using h)
    | record r =>
      cases hp : w.ParseToStyledText r with
      | error err =>
        simp [captionItems, hp] at h
        rw [← h]
        rfl
      | ok st => exact ih _ e (by simpa [captionItems, hp] using h)
    | seq l => exact ih _ e (by simpa [captionItems] using h)
    | int n => exact ih _ e (by simpa [captionItems] using h)
    | bool b => exact ih _ e (by simpa [captionItems] using h)
    | null => exact ih _ e (by simpa [captionItems] using h)

/-- The caption stage on a result that is neither a string nor a sequence. -/
theorem iter.nextCaption_other (w : World) (i : iter) (cur : File) (f : OsFile)
    (to_ : Option Peer) (thread : Int) (v : ExprValue)
    (hc : i.caption (exprEnv w cur) = Except.ok v)
    (h1 : ∀ s, v ≠ ExprValue.str s) (h2 : ∀ l, v ≠ ExprValue.seq l) :
    i.nextCaption w cur f to_ thread =
      (false, { i with err := errors.Errorf ("caption must return string or array of object: " ++ v.typeName) }) := by
  cases v with
  | str s => exact absurd rfl (h1 s)
  | seq l => exact absurd rfl (h2 l)
  | record r => simp [iter.nextCaption, hc]
  | int n => simp [iter.nextCaption, hc]
  | bool b => simp [iter.nextCaption, hc]
  | null => simp [iter.nextCaption, hc]

/-- The caption stage either stops with a non-nil terminal error or continues
with the thumbnail stage on the same iterator, destination and thread. -/
theorem iter.nextCaption_cases (w : World) (i : iter) (cur : File) (f : OsFile)
    (to_ : Option Peer) (thread : Int) :
    (∃ e : Error, e.isSome = true ∧
        i.nextCaption w cur f to_ thread = (false, { i with err := e })) ∨
      ∃ caption, i.nextCaption w cur f to_ thread = i.nextThumb w cur f to_ thread caption := by
  cases hc : i.caption (exprEnv w cur) with
  | error err =>
    exact Or.inl ⟨errors.Wrap (some err) "caption parse",
      errors.Wrap_isSome (some err) "caption parse", by simp [iter.nextCaption, hc]⟩
  | ok result =>
    by_cases h1 : ∃ s, result = ExprValue.str s
    · obtain ⟨s, rfl⟩ := h1
      exact Or.inr ⟨[styling.Plain s], by simp [iter.nextCaption, hc]⟩
    · by_cases h2 : ∃ l, result = ExprValue.seq l
      · obtain ⟨l, rfl⟩ := h2
        cases hl : captionItems w l [] with
        | error e =>
          exact Or.inl ⟨e, captionItems_error w l [] e hl, by simp [iter.nextCaption, hc, hl]⟩
        | ok caption => exact Or.inr ⟨caption, by simp [iter.nextCaption, hc, hl]⟩
      · exact Or.inl ⟨errors.Errorf _, rfl, iter.nextCaption_other w i cur f to_ thread result hc
          (fun s hs => h1 ⟨s, hs⟩) (fun l hl => h2 ⟨l, hl⟩)⟩

/-- A successful `nextCaption` stores a unit with the destination and thread
it was handed. -/
theorem iter.nextCaption_true (w : World) (i : iter) (cur : File) (f : OsFile)
    (to_ : Option Peer) (thread : Int)
    (h : (i.nextCaption w cur f to_ thread).1 = true) :
    ∃ elem, (i.nextCaption w cur f to_ thread).2.file = some elem ∧
      elem.to_ = to_ ∧ elem.thread = thread := by
  rcases iter.nextCaption_cases w i cur f to_ thread with ⟨e, _, he⟩ | ⟨caption, hc⟩
  · rw [he] at h
    cases h
  · rw [hc] at h ⊢
    obtain ⟨elem, h1, h2, h3, _⟩ := iter.nextThumb_true w i cur f to_ thread caption h
    exact ⟨elem, h1, h2, h3⟩

/-- The routing stage without a static chat, on a result that is neither a
string nor a record. -/
theorem iter.nextRoute_other (w : World) (i : iter) (cur : File) (f : OsFile) (v : ExprValue)
    (hchat : i.chat = "") (hr : i.to_ (exprEnv w cur) = Except.ok v)
    (h1 : ∀ s, v ≠ ExprValue.str s) (h2 : ∀ r, v ≠ ExprValue.record r) :
    i.nextRoute w cur f =
      (false, { i with err := errors.Errorf ("message router must return string or dest: " ++ v.typeName) }) := by
  cases v with
  | str s => exact absurd rfl (h1 s)
  | record r => exact absurd rfl (h2 r)
  | seq l => simp [iter.nextRoute, hchat, hr]
  | int n => simp [iter.nextRoute, hchat, hr]
  | bool b => simp [iter.nextRoute, hchat, hr]
  | null => simp [iter.nextRoute, hchat, hr]

/-- The routing stage without a static chat, on a string result. -/
theorem iter.nextRoute_str (w : World) (i : iter) (cur : File) (f : OsFile) (p : String)
    (hchat : i.chat = "") (hr : i.to_ (exprEnv w cur) = Except.ok (ExprValue.str p)) :
    i.nextRoute w cur f = i.nextCaption w cur f (i.resolvePeer w p).1 0 := by
  simp [iter.nextRoute, hchat, hr]

/-- The routing stage without a static chat, on a record that decodes. -/
theorem iter.nextRoute_record (w : World) (i : iter) (cur : File) (f : OsFile)
    (r : List (String × ExprValue)) (d : dest)
    (hchat : i.chat = "") (hr : i.to_ (exprEnv w cur) = Except.ok (ExprValue.record r))
    (hd : w.WeakDecode r = Except.ok d) :
    i.nextRoute w cur f = i.nextCaption w cur f (i.resolvePeer w d.Peer).1 d.Thread := by
  simp [iter.nextRoute, hchat, hr, hd]

/-- The routing stage, entered without a terminal error, either stops with a
non-nil terminal error or continues with the caption stage on the same
iterator. -/
theorem iter.nextRoute_cases (w : World) (i : iter) (cur : File) (f : OsFile)
    (herr : i.err = none) :
    (∃ e : Error, e.isSome = true ∧ i.nextRoute w cur f = (false, { i with err := e })) ∨
      ∃ to_ thread, i.nextRoute w cur f = i.nextCaption w cur f to_ thread := by
  by_cases hchat : i.chat = ""
  · cases hr : i.to_ (exprEnv w cur) with
    | error err =>
      exact Or.inl ⟨errors.Wrap (some err) "message routing",
        errors.Wrap_isSome (some err) "message routing", by simp [iter.nextRoute, hchat, hr]⟩
    | ok result =>
      by_cases h1 : ∃ s, result = ExprValue.str s
      · obtain ⟨s, rfl⟩ := h1
        exact Or.inr ⟨_, _, iter.nextRoute_str w i cur f s hchat hr⟩
      · by_cases h2 : ∃ r, result = ExprValue.record r
        · obtain ⟨r, rfl⟩ := h2
          cases hd : w.WeakDecode r with
          | error err =>
            exact Or.inl ⟨errors.Wrap (some err) ("decode dest: " ++ w.FormatV (ExprValue.record r)),
              errors.Wrap_isSome (some err) _, by simp [iter.nextRoute, hchat, hr, hd]⟩
          | ok d => exact Or.inr ⟨_, _, iter.nextRoute_record w i cur f r d hchat hr hd⟩
        · exact Or.inl ⟨errors.Errorf _, rfl, iter.nextRoute_other w i cur f result hchat hr
            (fun s hs => h1 ⟨s, hs⟩) (fun r hr2 => h2 ⟨r, hr2⟩)⟩
  · cases hr : (i.resolvePeer w i.chat).2 with
    | some e => exact Or.inl ⟨some e, rfl, by simp [iter.nextRoute, hchat, hr]⟩
    | none =>
      refine Or.inr ⟨(i.resolvePeer w i.chat).1, i.topic, ?_⟩
      have hi : ({ i with err := none } : iter) = i := by
        cases i
        simp_all
      simp [iter.nextRoute, hchat, hr, hi]

/-- A call of `Next` that consumes a file either stops with a non-nil terminal
error and the cursor advanced, constructing no unit, or reaches the thumbnail
stage for that file on the advanced iterator. -/
theorem iter.Next_cases (w : World) (ctx : Context) (i : iter) (cur : File)
    (hctx : ctx.Done = false) (hnext : i.HasNext = true) (hf : i.files[i.cur]? = some cur) :
    (∃ e : Error, e.isSome = true ∧
        i.Next w ctx = (false, { i with cur := i.cur + 1, err := e })) ∨
      ∃ f to_ thread caption, w.osOpen cur.File = Except.ok f ∧
        i.Next w ctx =
          ({ i with cur := i.cur + 1 } : iter).nextThumb w cur f to_ thread caption := by
  have herr : i.err = none := ((iter.HasNext_iff i).1 hnext).1
  cases hop : w.osOpen cur.File with
  | error err =>
    refine Or.inl ⟨_, errors.Wrap_isSome (some err) "open file", ?_⟩
    unfold iter.Next
    rw [hctx, hnext, hf]
    simp [hop]
  | ok f =>
    have hstep : i.Next w ctx = ({ i with cur := i.cur + 1 } : iter).nextRoute w cur f := by
      unfold iter.Next
      rw [hctx, hnext, hf]
      simp [hop]
    rcases iter.nextRoute_cases w { i with cur := i.cur + 1 } cur f herr with
      ⟨e, he, hr⟩ | ⟨to_, thread, hr⟩
    · exact Or.inl ⟨e, he, by rw [hstep, hr]⟩
    · rcases iter.nextCaption_cases w { i with cur := i.cur + 1 } cur f to_ thread with
        ⟨e, he, hc⟩ | ⟨caption, hc⟩
      · exact Or.inl ⟨e, he, by rw [hstep, hr, hc]⟩
      · exact Or.inr ⟨f, to_, thread, caption, rfl, by rw [hstep, hr, hc]⟩

/-- With an unreadable, non-image or unopenable thumbnail the thumbnail stage
returns false. -/
theorem iter.nextThumb_bad (w : World) (i : iter) (cur : File) (f : OsFile)
    (to_ : Option Peer) (thread : Int) (caption : List StyledTextOption)
    (hthumb : cur.Thumb ≠ "")
    (hbad : (∃ e, w.DetectFile cur.Thumb = Except.error e) ∨
      (∃ m, w.DetectFile cur.Thumb = Except.ok m ∧ w.IsImage m = false) ∨
      (∃ e, w.osOpen cur.Thumb = Except.error e)) :
    (i.nextThumb w cur f to_ thread caption).1 = false := by
  cases hdet : w.DetectFile cur.Thumb with
  | error e => simp [iter.nextThumb, hthumb, hdet]
  | ok m =>
    cases him : w.IsImage m with
    | false => simp [iter.nextThumb, hthumb, hdet, him]
    | true =>
      cases hop : w.osOpen cur.Thumb with
      | error e => simp [iter.nextThumb, hthumb, hdet, him, hop]
      | ok thumbFile =>
        rcases hbad with ⟨e, he⟩ | ⟨m2, hm2, him2⟩ | ⟨e, he⟩
        · rw [hdet] at he
          cases he
        · rw [hdet] at hm2
          cases hm2
          rw [him] at him2
          cases him2
        · rw [hop] at he
          cases he

/-- When the first call of `Next` in the producer loop returns false with a
terminal error, `Upload` dispatches nothing and returns a non-nil error. -/
theorem uploader.Upload_of_first_Next_false (w : World) (i : iter) (wgctx : Nat → Context)
    (waitErr : Error) (fuel : Nat) (h1 : (i.Next w (wgctx 0)).1 = false)
    (h2 : (i.Next w (wgctx 0)).2.err.isSome = true) :
    ∃ run, uploader.Upload (iterOps w) wgctx waitErr (fuel + 1) i = some run ∧
      run.ret ≠ none ∧ run.dispatched = [] := by
  have hp : uploader.produce (iterOps w) wgctx (fuel + 1) 0 i [] =
      some ((i.Next w (wgctx 0)).2, []) := by
    cases hn : i.Next w (wgctx 0) with
    | mk b s1 =>
      rw [hn] at h1
      simp only at h1
      subst h1
      simp [uploader.produce, iterOps, hn]
  cases he : (i.Next w (wgctx 0)).2.err with
  | none => simp [he] at h2
  | some err =>
    refine ⟨{ dispatched := [], waited := false, ret := errors.Wrap (some err) "iter" }, ?_,
      errors.Wrap_ne_none (some err) "iter", rfl⟩
    unfold uploader.Upload
    rw [hp]
    simp [iterOps, iter.Err, he]

/-- A call of `Next` that consumes a file and opens it continues with the
routing stage on the advanced iterator. -/
theorem iter.Next_open_ok (w : World) (ctx : Context) (i : iter) (cur : File) (f : OsFile)
    (hctx : ctx.Done = false) (hnext : i.HasNext = true) (hf : i.files[i.cur]? = some cur)
    (hopen : w.osOpen cur.File = Except.ok f) :
    i.Next w ctx = ({ i with cur := i.cur + 1 } : iter).nextRoute w cur f := by
  unfold iter.Next
  rw [hctx, hnext, hf]
  simp [hopen]

/-- When the caption expression yields `caption`, the thumbnail (if any) is a
readable image that opens, and the primary file can be stat-ed, the caption
stage returns true and stores exactly the unit built from its arguments. -/
theorem iter.nextCaption_ok (w : World) (i : iter) (cur : File) (f : OsFile)
    (to_ : Option Peer) (thread : Int) (caption : List StyledTextOption)
    (thumb : Option uploaderFile) (size : Int)
    (hcap : (∃ c, i.caption (exprEnv w cur) = Except.ok (ExprValue.str c) ∧
        caption = [styling.Plain c]) ∨
      (∃ l, i.caption (exprEnv w cur) = Except.ok (ExprValue.seq l) ∧
        captionItems w l [] = Except.ok caption))
    (hthumb : (cur.Thumb = "" ∧ thumb = none) ∨
      (cur.Thumb ≠ "" ∧ ∃ m thumbFile, w.DetectFile cur.Thumb = Except.ok m ∧
        w.IsImage m = true ∧ w.osOpen cur.Thumb = Except.ok thumbFile ∧
        thumb = some { File := thumbFile, size := 0 }))
    (hstat : w.osStat f = Except.ok size) :
    i.nextCaption w cur f to_ thread =
      (true, { i with file := some (
        { file := { File := f, size := size }, thumb := thumb, to_ := to_, caption := caption,
           thread := thread, asPhoto := i.photo, remove := i.remove } : iterElem) }) := by
  have h3 : i.nextStat w f to_ thread caption thumb =
      (true, { i with file := some (
        { file := { File := f, size := size }, thumb := thumb, to_ := to_, caption := caption,
           thread := thread, asPhoto := i.photo, remove := i.remove } : iterElem) }) := by
    simp [iter.nextStat, hstat]
  have h2 : i.nextThumb w cur f to_ thread caption = i.nextStat w f to_ thread caption thumb := by
    rcases hthumb with ⟨ht, hn⟩ | ⟨ht, m, thumbFile, hdet, him, hop, hn⟩
    · subst hn
      simp [iter.nextThumb, ht]
    · subst hn
      simp [iter.nextThumb, ht, hdet, him, hop]
  have h1 : i.nextCaption w cur f to_ thread = i.nextThumb w cur f to_ thread caption := by
    rcases hcap with ⟨c, hc, hn⟩ | ⟨l, hc, hl⟩
    · subst hn
      simp [iter.nextCaption, hc]
    · simp [iter.nextCaption, hc, hl]
  rw [h1, h2, h3]

/-! ## The iterator -/

/-- C5: when the cancellation token is already signaled, `iter.Next` returns
false and changes nothing but the terminal error, which becomes the token's
non-nil cancellation reason (cursor, current unit and file list are
untouched); `HasNext` is true exactly when the terminal error is empty and
the cursor is inside the file list, so it is false afterwards; and every
later sequence of `Next` calls, with signaled or non-signaled tokens, returns
false throughout and leaves `HasNext` false, the cursor and the unit
unchanged. -/
theorem iter_Next_canceled_sticky (w : World) (ctx : Context) (i : iter)
    (h : ctx.Done = true) :
    i.Next w ctx = (false, { i with err := ctx.Err }) ∧ ctx.Err ≠ none ∧
      (∀ j : iter, j.HasNext = true ↔ j.err = none ∧ j.cur < j.files.length) ∧
      (i.Next w ctx).2.HasNext = false ∧
      ∀ later : List Context,
        (∀ b ∈ (iter.Nexts w later (i.Next w ctx).2).1, b = false) ∧
        (iter.Nexts w later (i.Next w ctx).2).2.HasNext = false ∧
        (iter.Nexts w later (i.Next w ctx).2).2.cur = i.cur ∧
        (iter.Nexts w later (i.Next w ctx).2).2.file = i.file := by
  have hstep : i.Next w ctx = (false, { i with err := ctx.Err }) := by
    unfold iter.Next
    rw [if_pos h]
  have hsome : (i.Next w ctx).2.err.isSome = true := by
    rw [hstep]
    exact h
  refine ⟨hstep, ?_, iter.HasNext_iff, iter.HasNext_false_of_err _ hsome, ?_⟩
  · intro hn
    simp [Context.Done, hn] at h
  · intro later
    obtain ⟨k1, k2, k3, k4, _⟩ := iter.Nexts_of_err w later _ hsome
    refine ⟨k1, iter.HasNext_false_of_err _ k2, ?_, ?_⟩
    · rw [k3, hstep]
    · rw [k4, hstep]

theorem iter_Next_canceled_sticky_witness :
    (sampleIter [{ File := "a.jpg", Thumb := "" }] (ExprValue.str "me") (ExprValue.str "hi")).Next
        sampleWorld cancelled =
      (false, { sampleIter [{ File := "a.jpg", Thumb := "" }] (ExprValue.str "me")
                  (ExprValue.str "hi") with err := some GoError.canceled }) ∧
    (iter.Nexts sampleWorld [background, cancelled, background]
      ((sampleIter [{ File := "a.jpg", Thumb := "" }] (ExprValue.str "me")
        (ExprValue.str "hi")).Next sampleWorld cancelled).2).1 = [false, false, false] :=
  ⟨(iter_Next_canceled_sticky sampleWorld cancelled
      (sampleIter [{ File := "a.jpg", Thumb := "" }] (ExprValue.str "me") (ExprValue.str "hi"))
      rfl).1, by decide⟩

/-- C4: when `iter.Next` consumes `files[j]` (token not signaled, no terminal
error yet) and opening that file fails, the call returns false, stores the
non-nil error `open file: ...`, moves the cursor to `j + 1` and changes
nothing else; every later sequence of `Next` calls, with signaled or
non-signaled tokens, returns false throughout, constructs no unit, leaves the
cursor at `j + 1` and leaves `HasNext` false. -/
theorem iter_Next_open_failure_fail_fast (w : World) (ctx : Context) (i : iter) (j : Nat)
    (f : File) (e : GoError) (hctx : ctx.Done = false) (herr : i.err = none)
    (hcur : i.cur = j) (hf : i.files[j]? = some f)
    (hopen : w.osOpen f.File = Except.error e) :
    i.Next w ctx =
        (false, { i with cur := j + 1, err := errors.Wrap (some e) "open file" }) ∧
      errors.Wrap (some e) "open file" ≠ none ∧
      (i.Next w ctx).2.HasNext = false ∧
      ∀ later : List Context,
        (∀ b ∈ (iter.Nexts w later (i.Next w ctx).2).1, b = false) ∧
        (iter.Nexts w later (i.Next w ctx).2).2.file = i.file ∧
        (iter.Nexts w later (i.Next w ctx).2).2.cur = j + 1 ∧
        (iter.Nexts w later (i.Next w ctx).2).2.HasNext = false := by
  have hlt : i.cur < i.files.length := by
    rw [hcur]
    by_contra hge
    rw [List.getElem?_eq_none (Nat.le_of_not_lt hge)] at hf
    cases hf
  have hnext : i.HasNext = true := (iter.HasNext_iff i).2 ⟨herr, hlt⟩
  have hstep : i.Next w ctx =
      (false, { i with cur := j + 1, err := errors.Wrap (some e) "open file" }) := by
    unfold iter.Next
    rw [hctx, hnext, hcur, hf]
    simp [hopen]
  have hsome : (i.Next w ctx).2.err.isSome = true := by
    rw [hstep]
    rfl
  refine ⟨hstep, errors.Wrap_ne_none _ _, iter.HasNext_false_of_err _ hsome, ?_⟩
  intro later
  obtain ⟨k1, k2, k3, k4, _⟩ := iter.Nexts_of_err w later _ hsome
  refine ⟨k1, ?_, ?_, iter.HasNext_false_of_err _ k2⟩
  · rw [k4, hstep]
  · rw [k3, hstep]

theorem iter_Next_open_failure_fail_fast_witness :
    ((sampleIter [{ File := "missing.bin", Thumb := "" }, { File := "c.jpg", Thumb := "" }]
        (ExprValue.str "me") (ExprValue.str "hi")).Next sampleWorld background).1 = false ∧
    (iter.Nexts sampleWorld [background, cancelled, background]
      ((sampleIter [{ File := "missing.bin", Thumb := "" }, { File := "c.jpg", Thumb := "" }]
        (ExprValue.str "me") (ExprValue.str "hi")).Next sampleWorld background).2).2.cur = 0 + 1 :=
  ⟨by decide,
    ((iter_Next_open_failure_fail_fast sampleWorld background
      (sampleIter [{ File := "missing.bin", Thumb := "" }, { File := "c.jpg", Thumb := "" }]
        (ExprValue.str "me") (ExprValue.str "hi"))
      0 { File := "missing.bin", Thumb := "" } (GoError.msg "no such file")
      rfl rfl rfl rfl rfl).2.2.2 [background, cancelled, background]).2.2.1⟩

/-- C3: when `iter.Next` consumes a file whose thumbnail path is non-empty and
the thumbnail cannot be sniffed, or sniffs as a non-image type, or cannot be
opened, the call returns false, `Err()` is non-nil afterwards, `HasNext()` is
false, no unit is constructed, and an `Upload` whose producer makes this call
first dispatches nothing and returns a non-nil error. -/
theorem iter_Next_invalid_thumbnail (w : World) (ctx : Context) (i : iter) (cur : File)
    (hctx : ctx.Done = false) (hnext : i.HasNext = true) (hf : i.files[i.cur]? = some cur)
    (hthumb : cur.Thumb ≠ "")
    (hbad : (∃ e, w.DetectFile cur.Thumb = Except.error e) ∨
      (∃ m, w.DetectFile cur.Thumb = Except.ok m ∧ w.IsImage m = false) ∨
      (∃ e, w.osOpen cur.Thumb = Except.error e)) :
    (i.Next w ctx).1 = false ∧ (i.Next w ctx).2.Err ≠ none ∧
      (i.Next w ctx).2.HasNext = false ∧ (i.Next w ctx).2.file = i.file ∧
      ∀ (wgctx : Nat → Context) (waitErr : Error) (fuel : Nat), wgctx 0 = ctx →
        ∃ run, uploader.Upload (iterOps w) wgctx waitErr (fuel + 1) i = some run ∧
          run.ret ≠ none ∧ run.dispatched = [] := by
  have key : (i.Next w ctx).1 = false ∧ (i.Next w ctx).2.err.isSome = true ∧
      (i.Next w ctx).2.file = i.file := by
    rcases iter.Next_cases w ctx i cur hctx hnext hf with
      ⟨e, he, hstep⟩ | ⟨f, to_, thread, caption, _, hstep⟩
    · rw [hstep]
      exact ⟨rfl, he, rfl⟩
    · have hb := iter.nextThumb_bad w { i with cur := i.cur + 1 } cur f to_ thread caption
        hthumb hbad
      obtain ⟨k1, k2⟩ := iter.nextThumb_false w _ cur f to_ thread caption hb
      rw [hstep]
      exact ⟨hb, k1, k2⟩
  obtain ⟨k1, k2, k3⟩ := key
  refine ⟨k1, ?_, iter.HasNext_false_of_err _ k2, k3, ?_⟩
  · intro hn
    unfold iter.Err at hn
    rw [hn] at k2
    cases k2
  · intro wgctx waitErr fuel h0
    subst h0
    exact uploader.Upload_of_first_Next_false w i wgctx waitErr fuel k1 k2

theorem iter_Next_invalid_thumbnail_witness :
    ((sampleIter [{ File := "b.jpg", Thumb := "notes.txt" }] (ExprValue.str "me")
        (ExprValue.str "hi")).Next sampleWorld background).2.Err =
      some (GoError.wrapNil "invalid thumbnail file: notes.txt") ∧
    ((sampleIter [{ File := "b.jpg", Thumb := "notes.txt" }] (ExprValue.str "me")
        (ExprValue.str "hi")).Next sampleWorld background).1 = false :=
  ⟨by decide,
    (iter_Next_invalid_thumbnail sampleWorld background
      (sampleIter [{ File := "b.jpg", Thumb := "notes.txt" }] (ExprValue.str "me")
        (ExprValue.str "hi"))
      { File := "b.jpg", Thumb := "notes.txt" } rfl rfl rfl (by decide)
      (Or.inr (Or.inl ⟨"text/plain", rfl, by decide⟩))).1⟩

/-- C6: without a static chat, for a file that `iter.Next` consumes and opens
and whose destination expression returns `v`.  Whenever the remaining stages
succeed (the caption expression yields `caption`, the thumbnail, if any, is a
readable image that opens, and the file can be stat-ed): if `v` is a plain
string `p` that the peer directory resolves to the handle `h`, `Next` returns
true and stores the unit with destination `h` and thread 0; if `v` is a record
that decodes to `{Peer, Thread}` and `Peer` resolves to `h`, `Next` returns
true and stores the unit with destination `h` and thread `Thread`.  If `v` has
any other shape, `Next` returns false, the terminal error is the non-nil
`message router must return string or dest: <type of v>` and no unit is
constructed. -/
theorem iter_Next_dynamic_destination (w : World) (ctx : Context) (i : iter) (cur : File)
    (f : OsFile) (v : ExprValue)
    (hctx : ctx.Done = false) (hnext : i.HasNext = true) (hf : i.files[i.cur]? = some cur)
    (hchat : i.chat = "") (hopen : w.osOpen cur.File = Except.ok f)
    (hv : i.to_ (exprEnv w cur) = Except.ok v) :
    (∀ (caption : List StyledTextOption) (thumb : Option uploaderFile) (size : Int),
        ((∃ c, i.caption (exprEnv w cur) = Except.ok (ExprValue.str c) ∧
            caption = [styling.Plain c]) ∨
          (∃ l, i.caption (exprEnv w cur) = Except.ok (ExprValue.seq l) ∧
            captionItems w l [] = Except.ok caption)) →
        ((cur.Thumb = "" ∧ thumb = none) ∨
          (cur.Thumb ≠ "" ∧ ∃ m thumbFile, w.DetectFile cur.Thumb = Except.ok m ∧
            w.IsImage m = true ∧ w.osOpen cur.Thumb = Except.ok thumbFile ∧
            thumb = some { File := thumbFile, size := 0 })) →
        w.osStat f = Except.ok size →
        (∀ p h, v = ExprValue.str p → i.resolvePeer w p = (some h, none) →
          i.Next w ctx =
            (true, { i with cur := i.cur + 1, file := some (
              { file := { File := f, size := size }, thumb := thumb, to_ := some h,
                 caption := caption, thread := 0, asPhoto := i.photo,
                 remove := i.remove } : iterElem) })) ∧
        (∀ r d h, v = ExprValue.record r → w.WeakDecode r = Except.ok d →
          i.resolvePeer w d.Peer = (some h, none) →
          i.Next w ctx =
            (true, { i with cur := i.cur + 1, file := some (
              { file := { File := f, size := size }, thumb := thumb, to_ := some h,
                 caption := caption, thread := d.Thread, asPhoto := i.photo,
                 remove := i.remove } : iterElem) }))) ∧
      ((∀ p, v ≠ ExprValue.str p) → (∀ r, v ≠ ExprValue.record r) →
        (i.Next w ctx).1 = false ∧
        (i.Next w ctx).2.Err =
          some (GoError.msg ("message router must return string or dest: " ++ v.typeName)) ∧
        (i.Next w ctx).2.Value = i.Value) := by
  have hstep := iter.Next_open_ok w ctx i cur f hctx hnext hf hopen
  refine ⟨?_, ?_⟩
  · intro caption thumb size hcap hthumb hstat
    refine ⟨?_, ?_⟩
    · intro p h hp hres
      subst hp
      have hres1 : (({ i with cur := i.cur + 1 } : iter).resolvePeer w p).1 = some h := by
        have h0 : ({ i with cur := i.cur + 1 } : iter).resolvePeer w p = i.resolvePeer w p := rfl
        rw [h0, hres]
      rw [hstep, iter.nextRoute_str w ({ i with cur := i.cur + 1 } : iter) cur f p hchat hv,
        hres1,
        iter.nextCaption_ok w ({ i with cur := i.cur + 1 } : iter) cur f (some h) 0 caption
          thumb size hcap hthumb hstat]
    · intro r d h hr hd hres
      subst hr
      have hres1 : (({ i with cur := i.cur + 1 } : iter).resolvePeer w d.Peer).1 = some h := by
        have h0 : ({ i with cur := i.cur + 1 } : iter).resolvePeer w d.Peer =
            i.resolvePeer w d.Peer := rfl
        rw [h0, hres]
      rw [hstep,
        iter.nextRoute_record w ({ i with cur := i.cur + 1 } : iter) cur f r d hchat hv hd,
        hres1,
        iter.nextCaption_ok w ({ i with cur := i.cur + 1 } : iter) cur f (some h) d.Thread
          caption thumb size hcap hthumb hstat]
  · intro h1 h2
    rw [hstep,
      iter.nextRoute_other w ({ i with cur := i.cur + 1 } : iter) cur f v hchat hv h1 h2]
    exact ⟨rfl, rfl, rfl⟩

theorem iter_Next_dynamic_destination_witness :
    ((sampleIter [{ File := "a.jpg", Thumb := "" }] (ExprValue.str "p")
        (ExprValue.str "hi")).Next sampleWorld background).1 = true ∧
    ((sampleIter [{ File := "a.jpg", Thumb := "" }] (ExprValue.str "p")
        (ExprValue.str "hi")).Next sampleWorld background).2.Value =
      some { file := { File := { Name := "a.jpg" }, size := 10 }, thumb := none,
             to_ := some { id := 1 }, caption := [{ style := "plain", text := "hi" }],
             thread := 0, asPhoto := false, remove := false } ∧
    ((sampleIter [{ File := "a.jpg", Thumb := "" }]
        (ExprValue.record [("Peer", ExprValue.str "p"), ("Thread", ExprValue.int 5)])
        (ExprValue.str "hi")).Next sampleWorld background).2.Value =
      some { file := { File := { Name := "a.jpg" }, size := 10 }, thumb := none,
             to_ := some { id := 1 }, caption := [{ style := "plain", text := "hi" }],
             thread := 5, asPhoto := false, remove := false } ∧
    ((sampleIter [{ File := "a.jpg", Thumb := "" }] (ExprValue.int 7)
        (ExprValue.str "hi")).Next sampleWorld background).2.Err =
      some (GoError.msg "message router must return string or dest: int") :=
  ⟨congrArg (fun x : Bool × iter => x.1)
      (((iter_Next_dynamic_destination sampleWorld background
        (sampleIter [{ File := "a.jpg", Thumb := "" }] (ExprValue.str "p") (ExprValue.str "hi"))
        { File := "a.jpg", Thumb := "" } { Name := "a.jpg" } (ExprValue.str "p")
        rfl rfl rfl rfl rfl rfl).1 [styling.Plain "hi"] none 10
          (Or.inl ⟨"hi", rfl, rfl⟩) (Or.inl ⟨rfl, rfl⟩) rfl).1 "p" { id := 1 } rfl rfl),
    congrArg (fun x : Bool × iter => x.2.Value)
      (((iter_Next_dynamic_destination sampleWorld background
        (sampleIter [{ File := "a.jpg", Thumb := "" }] (ExprValue.str "p") (ExprValue.str "hi"))
        { File := "a.jpg", Thumb := "" } { Name := "a.jpg" } (ExprValue.str "p")
        rfl rfl rfl rfl rfl rfl).1 [styling.Plain "hi"] none 10
          (Or.inl ⟨"hi", rfl, rfl⟩) (Or.inl ⟨rfl, rfl⟩) rfl).1 "p" { id := 1 } rfl rfl),
    congrArg (fun x : Bool × iter => x.2.Value)
      (((iter_Next_dynamic_destination sampleWorld background
        (sampleIter [{ File := "a.jpg", Thumb := "" }]
          (ExprValue.record [("Peer", ExprValue.str "p"), ("Thread", ExprValue.int 5)])
          (ExprValue.str "hi"))
        { File := "a.jpg", Thumb := "" } { Name := "a.jpg" }
        (ExprValue.record [("Peer", ExprValue.str "p"), ("Thread", ExprValue.int 5)])
        rfl rfl rfl rfl rfl rfl).1 [styling.Plain "hi"] none 10
          (Or.inl ⟨"hi", rfl, rfl⟩) (Or.inl ⟨rfl, rfl⟩) rfl).2
        [("Peer", ExprValue.str "p"), ("Thread", ExprValue.int 5)] { Peer := "p", Thread := 5 }
        { id := 1 } rfl rfl rfl),
    ((iter_Next_dynamic_destination sampleWorld background
      (sampleIter [{ File := "a.jpg", Thumb := "" }] (ExprValue.int 7) (ExprValue.str "hi"))
      { File := "a.jpg", Thumb := "" } { Name := "a.jpg" } (ExprValue.int 7)
      rfl rfl rfl rfl rfl rfl).2 (fun _ hp => nomatch hp) (fun _ hr => nomatch hr)).2.1⟩

/-- C7, evaluated: a caption expression returning the sequence `[1, "x"]`
(a number, then a string) makes `iter.Next` return true with no terminal
error, and the unit's caption is the single plain segment `x`: the number is
dropped and no error is raised. -/
theorem iter_Next_caption_drops_number :
    ((sampleIter [{ File := "a.jpg", Thumb := "" }] (ExprValue.str "me")
        (ExprValue.seq [ExprValue.int 1, ExprValue.str "x"])).Next sampleWorld background).1 = true ∧
    ((sampleIter [{ File := "a.jpg", Thumb := "" }] (ExprValue.str "me")
        (ExprValue.seq [ExprValue.int 1, ExprValue.str "x"])).Next sampleWorld background).2.Err = none ∧
    ((sampleIter [{ File := "a.jpg", Thumb := "" }] (ExprValue.str "me")
        (ExprValue.seq [ExprValue.int 1, ExprValue.str "x"])).Next sampleWorld background).2.Value =
      some { file := { File := { Name := "a.jpg" }, size := 10 }, thumb := none,
             to_ := some { id := 1 }, caption := [{ style := "plain", text := "x" }],
             thread := 0, asPhoto := false, remove := false } := by
  decide

/-- C10, evaluated: without a static chat, when the destination expression
returns the string `nobody` and `resolvePeer` fails for it, `iter.Next` still
returns true with no terminal error and stores a unit whose destination is
nil; with the same peer configured as the static chat, `Next` returns false
with the resolution error. -/
theorem iter_Next_dynamic_resolve_error_ignored :
    ((sampleIter [{ File := "a.jpg", Thumb := "" }] (ExprValue.str "nobody")
        (ExprValue.str "hi")).resolvePeer sampleWorld "nobody").2 =
      some (GoError.msg "peer not found") ∧
    ((sampleIter [{ File := "a.jpg", Thumb := "" }] (ExprValue.str "nobody")
        (ExprValue.str "hi")).Next sampleWorld background).1 = true ∧
    ((sampleIter [{ File := "a.jpg", Thumb := "" }] (ExprValue.str "nobody")
        (ExprValue.str "hi")).Next sampleWorld background).2.Err = none ∧
    ((sampleIter [{ File := "a.jpg", Thumb := "" }] (ExprValue.str "nobody")
        (ExprValue.str "hi")).Next sampleWorld background).2.Value =
      some { file := { File := { Name := "a.jpg" }, size := 10 }, thumb := none,
             to_ := none, caption := [{ style := "plain", text := "hi" }],
             thread := 0, asPhoto := false, remove := false } ∧
    ((newIter [{ File := "a.jpg", Thumb := "" }] (constProgram (ExprValue.str "nobody"))
        (constProgram (ExprValue.str "hi")) "nobody" 0 false false).Next
          sampleWorld background).1 = false ∧
    ((newIter [{ File := "a.jpg", Thumb := "" }] (constProgram (ExprValue.str "nobody"))
        (constProgram (ExprValue.str "hi")) "nobody" 0 false false).Next
          sampleWorld background).2.Err = some (GoError.msg "peer not found") := by
  decide

/-! ## The upload pool and the transfer worker -/

/-- C1, evaluated: for a unit whose worker returns the non-cancellation error
`send message`, the task calls `OnAdd`, the worker, then `OnDone` once, and
the error handed to `OnDone` is nil, not the worker's error. -/
theorem task_OnDone_gets_nil_on_worker_error :
    uploader.task 0 "unit" (some (GoError.wrap "send message" (GoError.msg "rpc error"))) false =
      ([uploader.Event.OnAdd "unit", uploader.Event.upload "unit",
        uploader.Event.OnDone "unit" none], none) := by
  decide

/-- C2: the task dispatched for a unit returns a non-nil error exactly when
the worker returned an error that `errors.Is(err, context.Canceled)` accepts,
and then the returned value is that error wrapped with `upload`; for every
other worker error and for success it returns nil. -/
theorem task_returns_error_iff_canceled {ε : Type} (Delay : Nat) (elem : ε)
    (uploadErr : Error) (hasNext : Bool) :
    ((uploader.task Delay elem uploadErr hasNext).2 ≠ none ↔
        ∃ err, uploadErr = some err ∧ errors.IsCanceled err = true) ∧
      (∀ err, uploadErr = some err → errors.IsCanceled err = true →
        (uploader.task Delay elem uploadErr hasNext).2 = errors.Wrap (some err) "upload") := by
  cases uploadErr with
  | none =>
    constructor
    · have hn : (uploader.task Delay elem none hasNext).2 = none := by
        simp only [uploader.task]
        split <;> rfl
      simp [hn]
    · intro err h
      cases h
  | some e =>
    cases hc : errors.IsCanceled e with
    | true =>
      constructor
      · simp [uploader.task, hc, errors.Wrap]
      · intro err h _
        cases h
        simp [uploader.task, hc]
    | false =>
      constructor
      · have hn : (uploader.task Delay elem (some e) hasNext).2 = none := by
          simp only [uploader.task, hc]
          split
          · rename_i hff
            cases hff
          · split <;> rfl
        simp [hn, hc]
      · intro err h h2
        cases h
        rw [hc] at h2
        cases h2

/-- The media handed to the sender is the one chosen by `selectMedia` for the
sniffed mime type. -/
theorem uploader.upload_sent (r : uploader.Remote) (ctx : Context) (elem : uploader.Elem)
    (sent : uploader.Sent) (mime : String)
    (hsent : (uploader.upload r ctx elem).2 = some sent)
    (hmime : r.DetectReader elem.File = Except.ok mime) :
    ∃ f doc, uploader.selectMedia r elem f mime doc = Except.ok sent.media := by
  cases hd : ctx.Done with
  | true => simp [uploader.upload, hd] at hsent
  | false =>
    cases hu : r.Upload elem.File with
    | error e => simp [uploader.upload, hd, hu] at hsent
    | ok f =>
      cases hs : r.Seek 0 with
      | some e => simp [uploader.upload, hd, hu, hs] at hsent
      | none =>
        cases hsel : uploader.selectMedia r elem f mime (uploader.buildDocument r elem f mime) with
        | error e => simp [uploader.upload, hd, hu, hs, hmime, hsel] at hsent
        | ok media =>
          refine ⟨f, uploader.buildDocument r elem f mime, ?_⟩
          have hm : sent.media = media := by
            cases hmed : r.Media { To := elem.To, Reply := elem.Thread, media := media } <;>
              simp [uploader.upload, hd, hu, hs, hmime, hsel, hmed] at hsent <;>
              rw [← hsent]
          rw [hsel, hm]

/-- C8: with `m` the sniffed mime type.  Every message the transfer worker
hands to the sender uses the photo representation if and only if `m` is an
image type, photo mode was requested and `m` is not `image/webp`.  When the
worker is not cancelled, the chunked upload yields `f` and the first seek
succeeds: under that condition the worker does hand over the photo message
built from `f` and the caption; and for `m = image/webp`, which the media
helpers classify as neither video nor audio, it hands over the document
message, whether or not photo mode was requested. -/
theorem upload_photo_iff (r : uploader.Remote) (ctx : Context) (elem : uploader.Elem)
    (m : String) (hmime : r.DetectReader elem.File = Except.ok m) :
    (∀ sent, (uploader.upload r ctx elem).2 = some sent →
        ((∃ f c, sent.media = uploader.MediaOption.photo f c) ↔
          (r.IsImage m = true ∧ elem.AsPhoto = true ∧ m ≠ "image/webp"))) ∧
      (∀ f, ctx.Done = false → r.Upload elem.File = Except.ok f → r.Seek 0 = none →
        r.IsImage m = true → elem.AsPhoto = true → m ≠ "image/webp" →
        (uploader.upload r ctx elem).2 =
          some { To := elem.To, Reply := elem.Thread,
                 media := uploader.MediaOption.photo f elem.Caption }) ∧
      (∀ f, ctx.Done = false → r.Upload elem.File = Except.ok f → r.Seek 0 = none →
        m = "image/webp" → r.IsVideo "image/webp" = false → r.IsAudio "image/webp" = false →
        (uploader.upload r ctx elem).2 =
          some { To := elem.To, Reply := elem.Thread,
                 media := uploader.MediaOption.document (uploader.buildDocument r elem f m) }) := by
  have hup : ∀ f media, ctx.Done = false → r.Upload elem.File = Except.ok f → r.Seek 0 = none →
      uploader.selectMedia r elem f m (uploader.buildDocument r elem f m) = Except.ok media →
      (uploader.upload r ctx elem).2 =
        some { To := elem.To, Reply := elem.Thread, media := media } := by
    intro f media hd hu hs hsel
    cases hmed : r.Media { To := elem.To, Reply := elem.Thread, media := media } <;>
      simp [uploader.upload, hd, hu, hs, hmime, hsel, hmed]
  refine ⟨?_, ?_, ?_⟩
  · intro sent hsent
    obtain ⟨f, doc, hsel⟩ := uploader.upload_sent r ctx elem sent m hsent hmime
    unfold uploader.selectMedia at hsel
    constructor
    · rintro ⟨f2, c, hp⟩
      rw [hp] at hsel
      by_cases h1 : (r.IsImage m && elem.AsPhoto) = true
      · rw [if_pos h1] at hsel
        by_cases h2 : m = "image/webp"
        · rw [if_pos h2] at hsel
          cases hsel
        · simp only [Bool.and_eq_true] at h1
          exact ⟨h1.1, h1.2, h2⟩
      · rw [if_neg h1] at hsel
        split at hsel
        · split at hsel
          · cases hsel
          · split at hsel <;> cases hsel
        · split at hsel <;> cases hsel
    · rintro ⟨h1, h2, h3⟩
      have h12 : (r.IsImage m && elem.AsPhoto) = true := by simp [h1, h2]
      rw [if_pos h12, if_neg h3] at hsel
      exact ⟨f, elem.Caption, (Except.ok.inj hsel).symm⟩
  · intro f hd hu hs h1 h2 h3
    apply hup f _ hd hu hs
    have h12 : (r.IsImage m && elem.AsPhoto) = true := by simp [h1, h2]
    unfold uploader.selectMedia
    rw [if_pos h12, if_neg h3]
  · intro f hd hu hs hm hv ha
    subst hm
    apply hup f _ hd hu hs
    unfold uploader.selectMedia
    by_cases h1 : (r.IsImage "image/webp" && elem.AsPhoto) = true
    · rw [if_pos h1, if_pos rfl]
    · rw [if_neg h1, hv, ha]
      simp

theorem upload_photo_iff_witness :
    (uploader.upload sampleRemote background (sampleElem "a.jpg" true)).2 =
      some { To := some { id := 0 }, Reply := 0,
             media := uploader.MediaOption.photo { id := 1 } [] } ∧
    (uploader.upload sampleRemote background (sampleElem "a.webp" true)).2 = some sampleSent ∧
    (uploader.upload sampleRemote background (sampleElem "a.webp" false)).2 = some sampleSent :=
  ⟨(upload_photo_iff sampleRemote background (sampleElem "a.jpg" true) "image/jpeg" rfl).2.1
      { id := 1 } rfl rfl rfl (by decide) rfl (by decide),
    (upload_photo_iff sampleRemote background (sampleElem "a.webp" true) "image/webp" rfl).2.2
      { id := 1 } rfl rfl rfl rfl (by decide) (by decide),
    (upload_photo_iff sampleRemote background (sampleElem "a.webp" false) "image/webp" rfl).2.2
      { id := 1 } rfl rfl rfl rfl (by decide) (by decide)⟩

/-- C9, evaluated: for the files `a.jpg`, `missing.bin`, `c.jpg`, where the
second cannot be opened, the producer dispatches the task for `a.jpg`, the
iterator then stops with a terminal error, and `Upload` returns that error
wrapped with `iter` without having called `wg.Wait()`. -/
theorem Upload_returns_iter_error_without_Wait :
    uploader.Upload (iterOps sampleWorld) (fun _ => background) none 4
        (sampleIter [{ File := "a.jpg", Thumb := "" }, { File := "missing.bin", Thumb := "" },
          { File := "c.jpg", Thumb := "" }] (ExprValue.str "me") (ExprValue.str "hi")) =
      some { dispatched :=
               [some { file := { File := { Name := "a.jpg" }, size := 10 }, thumb := none,
                       to_ := some { id := 1 }, caption := [{ style := "plain", text := "hi" }],
                       thread := 0, asPhoto := false, remove := false }],
             waited := false,
             ret := some (GoError.wrap "iter"
               (GoError.wrap "open file" (GoError.msg "no such file"))) } := by
  decide

end Tdl
